import Mathlib

/-
Verification development for produce_lock_info.c: the ingestion (read_data),
consolidation (organize_data) and ranking/rendering (dump_data) core of the
bpftrace mutex-contention report generator.

Embedding conventions:
  * C strings are `List Char`; `strcmp` is embedded directly.
  * The eight-slot `long data[8]` array of `struct lock_info` is a function
    `Fin 8 → Int` (C `long` arithmetic never approaches 2^63 in the claims,
    so machine integers are modelled as unbounded `Int`; C `long` division
    truncates toward zero, embedded as `Int.tdiv`).
  * The lock-record array kept sorted by `qsort` and probed with `bsearch`
    is embedded as a list with exact-match lookup (`List.find?`): sorting
    only serves to make `bsearch` find the unique entry whose key matches,
    which is what `find?` computes on any order, and no claim observes the
    internal array order of the stack store.
  * `fgets` lines are `List Char` values that still carry their trailing
    `'\n'` when the underlying line had one; a line without `'\n'` models
    the malformed case checked by `remove_new_line`.
  * Fallible code (`exit(EXIT_FAILURE)` after a diagnostic) is `Except`
    with the diagnosed line as the error payload.
-/

namespace ProduceLockInfo

/-- Indexes into the `data` array, from the `#define` block (lines 54-61). -/
def ACQ_DATA_HOLD_AVG : Fin 8 := 0

/-- The define `ACQ_DATA_HOLD_MAX 1`. -/
def ACQ_DATA_HOLD_MAX : Fin 8 := 1

/-- The define `ACQ_DATA_HOLD_COUNT 2`. -/
def ACQ_DATA_HOLD_COUNT : Fin 8 := 2

/-- The define `ACQ_DATA_TOTAL_TIME 3`. -/
def ACQ_DATA_TOTAL_TIME : Fin 8 := 3

/-- The define `HD_DATA_HOLD_AVG 4`. -/
def HD_DATA_HOLD_AVG : Fin 8 := 4

/-- The define `HD_DATA_HOLD_MAX 5`. -/
def HD_DATA_HOLD_MAX : Fin 8 := 5

/-- The define `HD_DATA_HOLD_COUNT 6`. -/
def HD_DATA_HOLD_COUNT : Fin 8 := 6

/-- The define `HD_DATA_TOTAL_TIME 7`. -/
def HD_DATA_TOTAL_TIME : Fin 8 := 7

/-- Sort-code define `#define ACQS_SPENT 6` (line 69); used both as the
default of `sort_on` in `main` and as the clamp bound for `-S`. -/
def ACQS_SPENT : Int := 6

/-- Struct `lock_info` (lines 74-78): stack signature, called-from key and
the eight metric slots. -/
structure LockInfo where
  stack : List Char
  called_from : List Char
  data : Fin 8 → Int

/-- Write slot `i` of a `data` array, leaving the other slots unchanged
(the effect of a C assignment `d[i] = v`). -/
def dupd (d : Fin 8 → Int) (i : Fin 8) (v : Int) : Fin 8 → Int :=
  fun j => if j = i then v else d j

/-- C `strcmp` on the embedded strings (three-way lexicographic compare). -/
def strcmp : List Char → List Char → Ordering
  | [], [] => Ordering.eq
  | [], _ :: _ => Ordering.lt
  | _ :: _, [] => Ordering.gt
  | a :: as, b :: bs =>
    if a < b then Ordering.lt else if b < a then Ordering.gt else strcmp as bs

/-- C `isspace` on the ASCII characters it accepts. -/
def isspace_c (c : Char) : Bool :=
  c = ' ' || c = '\t' || c = '\n' || c = '\x0b' || c = '\x0c' || c = '\r'

/-- Digit-accumulation loop of C `atoll`: consume leading decimal digits,
stopping at the first non-digit. -/
def digits_val (acc : Int) : List Char → Int
  | c :: cs => if c.isDigit then digits_val (acc * 10 + (c.toNat - '0'.toNat : Nat)) cs else acc
  | [] => acc

/-- C `atoll`: skip leading whitespace, take an optional sign, then read
decimal digits; text with no leading digits converts to 0. -/
def atoll (s : List Char) : Int :=
  match s.dropWhile isspace_c with
  | [] => 0
  | c :: r =>
    if c = '-' then - digits_val 0 r
    else if c = '+' then digits_val 0 r
    else digits_val 0 (c :: r)

/-- Function `remove_new_line` (lines 239-252): replace the first `'\n'` by `' '` and
terminate the string there; a buffer with no `'\n'` is a fatal malformed
line (`fprintf` diagnostic naming the buffer, then `exit(EXIT_FAILURE)`). -/
def remove_new_line (buffer : List Char) : Except (List Char) (List Char) :=
  if '\n' ∈ buffer then
    Except.ok (buffer.takeWhile (fun c => c ≠ '\n') ++ [' '])
  else
    Except.error buffer

/-- Test `strstr(buffer, "[]") != NULL`: the empty-collection marker test of
`read_data` (line 282). -/
def has_empty_marker : List Char → Bool
  | '[' :: ']' :: _ => true
  | _ :: rest => has_empty_marker rest
  | [] => false

/-- The `strrchr(buffer, ' '); ptr[0] = ':'; ptr[1] = '\0'` surgery of
`read_data` (lines 299-301 and 370-372): truncate at the last space and
replace it by the `':'` frame separator.  After `remove_new_line` every
buffer ends in `' '`, so the last space always exists there. -/
def last_space_to_colon (buffer : List Char) : List Char :=
  (((buffer.reverse.dropWhile (fun c => c ≠ ' ')).drop 1).reverse) ++ [':']

/-- Call `strchr(buffer, ':')` followed by taking `&ptr[1]` (lines 313-315):
the text after the first `':'`, or `none` when the separator is absent. -/
def after_colon (buffer : List Char) : Option (List Char) :=
  if ':' ∈ buffer then some ((buffer.dropWhile (fun c => c ≠ ':')).drop 1) else none

/-- Store keys: the stack signatures of the records currently held. -/
def keys (store : List LockInfo) : List (List Char) :=
  store.map (fun r => r.stack)

/-- A freshly inserted record of `read_data` (lines 343-353): `bzero`, then
stack, called-from and the single metric slot of the current section. -/
def new_rec (stack_in func_called : List Char) (index : Fin 8) (value : Int) : LockInfo :=
  { stack := stack_in, called_from := func_called,
    data := dupd (fun _ => 0) index value }

/-- The store update of `read_data` on a stack terminator (lines 320-358):
look the signature up (`bsearch` over the signature-sorted array); if absent
insert a fresh record carrying this section's value, otherwise add the value
into the existing record's slot for this section. -/
def lock_add (store : List LockInfo) (stack_in func_called : List Char)
    (index : Fin 8) (value : Int) : List LockInfo :=
  match store.find? (fun r => strcmp stack_in r.stack == Ordering.eq) with
  | some _ =>
      store.map (fun r =>
        if strcmp stack_in r.stack == Ordering.eq then
          { r with data := dupd r.data index (r.data index + value) }
        else r)
  | none => store ++ [new_rec stack_in func_called index value]

/-- Local parsing state of one `read_data` call: `stack_in`, `func_called`,
`depth` and `have_function` (lines 270-274). -/
structure ReadState where
  stack_in : List Char
  func_called : List Char
  depth : Nat
  have_function : Bool

/-- The locals of `read_data` at function entry. -/
def init_state : ReadState := ⟨[], [], 0, false⟩

/-- Function `read_data` (lines 263-376): consume lines until the `'='` section
terminator, building stack signatures and folding each entry's value into
the store; returns the updated store and the lines remaining after the
section.  A data line without `'\n'`, or a `']'` terminator line without a
`':'` value separator, aborts with the offending line as diagnostic; the
`'\n' ∉ line` test and the resulting buffer are the inlined success and
failure branches of `remove_new_line`, and the `':' ∉ buf` test with the
drop-after-colon expression is the inlined `strchr`/`after_colon` logic of
lines 313-319.  Exhausting the input (EOF) ends the walk; the C code's
behaviour at EOF (`fgets` failing while its result is ignored) is not
modelled and not claimed. -/
def read_data (index : Fin 8) (sdepth : Nat) :
    ReadState → List LockInfo → List (List Char) →
    Except (List Char) (List LockInfo × List (List Char))
  | _, store, [] => Except.ok (store, [])
  | st, store, line :: rest =>
    if line.head? = some '=' then Except.ok (store, rest)
    else if has_empty_marker line then read_data index sdepth st store rest
    else if line.head? = some '@' then
      read_data index sdepth { st with have_function := false } store rest
    else if '\n' ∉ line then Except.error line
    else
      let buf := line.takeWhile (fun c => c ≠ '\n') ++ [' ']
      if st.have_function = false then
        match rest with
        | [] => Except.ok (store, [])
        | line2 :: rest2 =>
          if '\n' ∉ line2 then Except.error line2
          else
            let buf2 := line2.takeWhile (fun c => c ≠ '\n') ++ [' ']
            read_data index sdepth
              { stack_in := buf ++ last_space_to_colon buf2,
                func_called := last_space_to_colon buf2,
                depth := 1, have_function := true } store rest2
      else if buf.head? = some ']' then
        if ':' ∉ buf then Except.error buf
        else
          read_data index sdepth { st with depth := 0 }
            (lock_add store st.stack_in st.func_called index
              (atoll ((buf.dropWhile (fun c => c ≠ ':')).drop 1))) rest
      else
        if st.depth < sdepth then
          read_data index sdepth
            { st with stack_in := st.stack_in ++ buf,
                      func_called := st.func_called ++ last_space_to_colon buf,
                      depth := st.depth + 1 } store rest
        else
          read_data index sdepth { st with stack_in := st.stack_in ++ buf } store rest

/-- Function `lookup_data` (lines 383-427): skip the leading header lines, then run
`read_data` once per section in the fixed order
acq-avg, acq-max, acq-count, hold-avg, hold-max, hold-count, threading the
store through and skipping two header lines before each section. -/
def lookup_data (lines : List (List Char)) (sdepth : Nat) :
    Except (List Char) (List LockInfo) := do
  let r0 := lines.drop 2
  let (s1, r1) ← read_data ACQ_DATA_HOLD_AVG sdepth init_state [] (r0.drop 2)
  let (s2, r2) ← read_data ACQ_DATA_HOLD_MAX sdepth init_state s1 (r1.drop 2)
  let (s3, r3) ← read_data ACQ_DATA_HOLD_COUNT sdepth init_state s2 (r2.drop 2)
  let (s4, r4) ← read_data HD_DATA_HOLD_AVG sdepth init_state s3 (r3.drop 2)
  let (s5, r5) ← read_data HD_DATA_HOLD_MAX sdepth init_state s4 (r4.drop 2)
  let (s6, _) ← read_data HD_DATA_HOLD_COUNT sdepth init_state s5 (r5.drop 2)
  Except.ok s6

/-- One acquisition-or-hold family of the consolidation fold
(lines 468-481): weighted running average with the per-step truncating
division guarded by a non-zero merged count, and the merged count itself. -/
def fold_family (avg_i cnt_i : Fin 8) (d w : Fin 8 → Int) : Fin 8 → Int :=
  let new_average := d avg_i * d cnt_i + w avg_i * w cnt_i
  let d1 := dupd d cnt_i (d cnt_i + w cnt_i)
  if d1 cnt_i ≠ 0 then dupd d1 avg_i (Int.tdiv new_average (d1 cnt_i)) else d1

/-- The max merge of the consolidation fold (lines 483-488). -/
def fold_max (max_i : Fin 8) (d w : Fin 8 → Int) : Fin 8 → Int :=
  if d max_i < w max_i then dupd d max_i (w max_i) else d

/-- One full fold step of `organize_data` (lines 466-488), applied to the
consolidated entry `entry_add` with the incoming stack record `wptr`:
acquisition family, hold family, then the two max merges, in source order. -/
def cons_fold (entry_add wptr : LockInfo) : LockInfo :=
  let d1 := fold_family ACQ_DATA_HOLD_AVG ACQ_DATA_HOLD_COUNT entry_add.data wptr.data
  let d2 := fold_family HD_DATA_HOLD_AVG HD_DATA_HOLD_COUNT d1 wptr.data
  let d3 := fold_max ACQ_DATA_HOLD_MAX d2 wptr.data
  let d4 := fold_max HD_DATA_HOLD_MAX d3 wptr.data
  { entry_add with data := d4 }

/-- The consolidated entry right after the `add_entry` path of
`organize_data` (lines 462-465): `bzero`, then the called-from key. -/
def blank_caller (cf : List Char) : LockInfo :=
  { stack := [], called_from := cf, data := fun _ => 0 }

/-- The consolidated-store memory of `organize_data`: the allocated buffer
contents and `number_cons_entries`, the count of entries `bsearch` (and
later `dump_data`) can see.  Keeping the two separate is essential: the
`count == 0` arm of the loop stores into a `malloc`ed slot without ever
incrementing `number_cons_entries`. -/
structure ConsState where
  buffer : List LockInfo
  ncons : Nat

/-- One iteration of the `organize_data` loop (lines 443-489) at loop index
`count` on stack record `wptr`.  For `count == 0` the record is folded into
a fresh `malloc`ed slot but `number_cons_entries` stays 0; for later counts
the visible prefix of the buffer is searched by called-from key, folding in
place on a hit and reallocating/appending a fresh entry on a miss. -/
def cons_iter (st : ConsState) (count : Nat) (wptr : LockInfo) : ConsState :=
  if count = 0 then
    { buffer := [cons_fold (blank_caller wptr.called_from) wptr], ncons := 0 }
  else
    match (st.buffer.take st.ncons).findIdx?
        (fun r => strcmp wptr.called_from r.called_from == Ordering.eq) with
    | some i =>
        let e := cons_fold (st.buffer.getD i (blank_caller [])) wptr
        { st with buffer := st.buffer.set i e }
    | none =>
        let e := cons_fold (blank_caller wptr.called_from) wptr
        { buffer := st.buffer.take st.ncons ++ [e], ncons := st.ncons + 1 }

/-- The `for` loop of `organize_data`, threading the loop index. -/
def cons_loop : ConsState → Nat → List LockInfo → ConsState
  | st, _, [] => st
  | st, count, w :: ws => cons_loop (cons_iter st count w) (count + 1) ws

/-- Comparator order of the `qsort(lock_data, ..., sort_func)` call at the
top of `organize_data` (line 441): ascending by `strcmp` on `called_from`. -/
def caller_le (a b : LockInfo) : Prop :=
  strcmp a.called_from b.called_from ≠ Ordering.gt

instance : DecidableRel caller_le := fun a b => by
  unfold caller_le; infer_instance

/-- Function `organize_data` (lines 432-490): sort the stack records by called-from
key, run the consolidation loop, and expose the first
`number_cons_entries` buffer slots (all that `dump_data` ever reads). -/
def organize_data (entries : List LockInfo) : List LockInfo :=
  let st := cons_loop ⟨[], 0⟩ 0 (List.insertionSort caller_le entries)
  st.buffer.take st.ncons

/-- The totals derivation of `dump_data` (lines 514-519):
`acq_total = acq_avg * acq_count` and `hold_total = hold_avg * hold_count`. -/
def derive_totals (r : LockInfo) : LockInfo :=
  let d1 := dupd r.data ACQ_DATA_TOTAL_TIME (r.data ACQ_DATA_HOLD_AVG * r.data ACQ_DATA_HOLD_COUNT)
  let d2 := dupd d1 HD_DATA_TOTAL_TIME (r.data HD_DATA_HOLD_AVG * r.data HD_DATA_HOLD_COUNT)
  { r with data := d2 }

/-- The sort-criterion dispatch of `dump_data` (lines 521-547): which `data`
slot the chosen comparison function orders by; the `default` arm of the
switch (shared with `case 7`) is `sort_aq_spin`, the acq-total comparator. -/
def criterion_index (sort_option : Int) : Fin 8 :=
  if sort_option = 0 then HD_DATA_HOLD_COUNT
  else if sort_option = 1 then HD_DATA_HOLD_MAX
  else if sort_option = 2 then HD_DATA_HOLD_AVG
  else if sort_option = 3 then HD_DATA_TOTAL_TIME
  else if sort_option = 4 then ACQ_DATA_HOLD_COUNT
  else if sort_option = 5 then ACQ_DATA_HOLD_MAX
  else if sort_option = 6 then ACQ_DATA_HOLD_AVG
  else ACQ_DATA_TOTAL_TIME

/-- Descending order on one metric slot: the order produced by `qsort` with
any of the eight `sort_*` comparators (each returns 1 when its first
argument's slot is smaller).  Ties are left in any order by `qsort`; the
embedding's stable insertion sort realizes one admissible outcome. -/
def desc_by (idx : Fin 8) (a b : LockInfo) : Prop :=
  b.data idx ≤ a.data idx

instance : DecidableRel (desc_by idx) := fun a b => by
  unfold desc_by; infer_instance

/-- The criterion sort of `dump_data`. -/
def sort_records (idx : Fin 8) (l : List LockInfo) : List LockInfo :=
  List.insertionSort (desc_by idx) l

/-- Conversion of the `int` row limit to `size_t` in the comparison
`numb_to_show < number_cons_entries` (line 551): the usual arithmetic
conversions reduce the signed value modulo 2^64. -/
def size_t_of_int (n : Int) : Nat := (n % (2 : Int) ^ 64).toNat

/-- The truncation of `dump_data` (lines 551-552): the loop bound after
`number_cons_entries` is clamped to `numb_to_show`. -/
def truncate_count (numb_to_show : Int) (len : Nat) : Nat :=
  if size_t_of_int numb_to_show < len then size_t_of_int numb_to_show else len

/-- The caller string a row is compared against (lines 556-567): the
called-from key truncated at its first `':'`, leading `isspace` characters
skipped, then truncated at the first `' '`. -/
def first_token (cf : List Char) : List Char :=
  ((cf.takeWhile (fun c => c ≠ ':')).dropWhile isspace_c).takeWhile (fun c => c ≠ ' ')

/-- The filter test inside the row loop of `dump_data` (lines 559-568): with
no `-C` caller every row passes; with one, the row passes iff `strcmp` of
its first token against the caller string is 0. -/
def row_matches (caller : Option (List Char)) (r : LockInfo) : Bool :=
  match caller with
  | none => true
  | some c => strcmp (first_token r.called_from) c == Ordering.eq

/-- The records `dump_data` renders as data rows (lines 551-591): the store
is truncated to `numb_to_show` entries first, and the caller filter then
drops non-matching rows from that prefix (`continue` inside the loop). -/
def dump_rows (store : List LockInfo) (caller : Option (List Char))
    (numb_to_show : Int) : List LockInfo :=
  (store.take (truncate_count numb_to_show store.length)).filter (row_matches caller)

/-- The `-S` handling in `main` (lines 881-887): values greater than
`ACQS_SPENT` are replaced by `ACQS_SPENT` and a diagnostic is printed
(second component `true`); all other values pass through silently. -/
def clamp_sort_option (v : Int) : Int × Bool :=
  if v > ACQS_SPENT then (ACQS_SPENT, true) else (v, false)

/-- Default of `sort_on` in `main` (line 852): `ACQS_SPENT`. -/
def default_sort_on : Int := ACQS_SPENT

/-- The full data path of `main` with `interval == 0` (lines 906-912):
parse, consolidate, derive totals, sort by the chosen criterion, and render
the truncated, filtered rows.  A parse error aborts before any output. -/
def produce_report (lines : List (List Char)) (sdepth : Nat)
    (caller : Option (List Char)) (sort_on : Int) (numb_to_show : Int) :
    Except (List Char) (List LockInfo) := do
  let store ← lookup_data lines sdepth
  let cons := organize_data store
  let cons2 := cons.map derive_totals
  let sorted := sort_records (criterion_index sort_on) cons2
  Except.ok (dump_rows sorted caller numb_to_show)

/-- Formalisation of the claim wording for the render step (spec §4.4
steps 3-4): filter by caller first, then take the first `max_rows` of the
surviving records.  Kept separate from `dump_rows`, which embeds the code,
so the two can be compared. -/
def spec_rendered_rows (store : List LockInfo) (caller : Option (List Char))
    (numb_to_show : Int) : List LockInfo :=
  (store.filter (row_matches caller)).take numb_to_show.toNat

/-- An abstract parsed entry: one stack terminator's worth of data handed to
the store update, tagged with the section it came from. -/
structure AddEvent where
  stack : List Char
  func : List Char
  index : Fin 8
  value : Int

/-- Folding a sequence of parsed entries through the `read_data` store
update, in arrival order (the six sections contribute their entries one
after the other through the shared store). -/
def parse_fold (store : List LockInfo) (events : List AddEvent) : List LockInfo :=
  events.foldl (fun st e => lock_add st e.stack e.func e.index e.value) store

/-- The all-zero metric vector (`bzero`ed `data` array). -/
def zero_data : Fin 8 → Int := fun _ => 0

/-- Concrete stack record: caller `foo+10`, `acq_count = 10`, `acq_avg = 100`
(stack A of the spec's example scenario). -/
def rec_foo_a : LockInfo :=
  ⟨['a'], "foo+10:".toList, dupd (dupd zero_data ACQ_DATA_HOLD_AVG 100) ACQ_DATA_HOLD_COUNT 10⟩

/-- Concrete stack record: caller `foo+10`, `acq_count = 30`, `acq_avg = 300`
(stack B of the spec's example scenario). -/
def rec_foo_b : LockInfo :=
  ⟨['b'], "foo+10:".toList, dupd (dupd zero_data ACQ_DATA_HOLD_AVG 300) ACQ_DATA_HOLD_COUNT 30⟩

/-- Concrete stack record with a different caller `bar+1`. -/
def rec_bar : LockInfo :=
  ⟨['c'], "bar+1:".toList, dupd (dupd zero_data ACQ_DATA_HOLD_AVG 7) ACQ_DATA_HOLD_COUNT 2⟩

/-- Consolidated record with high acq average but low acq total:
`acq_avg = 100`, `acq_count = 1`. -/
def rec_high_avg : LockInfo :=
  ⟨[], "a: ".toList, dupd (dupd zero_data ACQ_DATA_HOLD_AVG 100) ACQ_DATA_HOLD_COUNT 1⟩

/-- Consolidated record with low acq average but high acq total:
`acq_avg = 10`, `acq_count = 100`. -/
def rec_high_total : LockInfo :=
  ⟨[], "b: ".toList, dupd (dupd zero_data ACQ_DATA_HOLD_AVG 10) ACQ_DATA_HOLD_COUNT 100⟩

/-- Consolidated record whose first token does not match caller `foo+10`. -/
def rec_filter_fail : LockInfo := ⟨[], "bar+1: ".toList, zero_data⟩

/-- Consolidated record whose first token matches caller `foo+10`. -/
def rec_filter_pass : LockInfo := ⟨[], "foo+10: ".toList, zero_data⟩

/- ------------------------------------------------------------------ -/
/- Helper lemmas shared by the claim theorems.                         -/
/- ------------------------------------------------------------------ -/

theorem strcmp_refl (a : List Char) : strcmp a a = Ordering.eq := by
  induction a with
  | nil => rfl
  | cons c cs ih => simp [strcmp, lt_irrefl, ih]

theorem strcmp_eq_iff {a b : List Char} : strcmp a b = Ordering.eq ↔ a = b := by
  induction a generalizing b with
  | nil => cases b <;> simp [strcmp]
  | cons c cs ih =>
    cases b with
    | nil => simp [strcmp]
    | cons d ds =>
      by_cases h1 : c < d
      · simp only [strcmp, if_pos h1]
        constructor
        · intro h; exact absurd h (by decide)
        · intro h; cases h; exact absurd h1 (lt_irrefl _)
      · by_cases h2 : d < c
        · simp only [strcmp, if_neg h1, if_pos h2]
          constructor
          · intro h; exact absurd h (by decide)
          · intro h; cases h; exact absurd h2 (lt_irrefl _)
        · have hcd : c = d := le_antisymm (not_lt.mp h2) (not_lt.mp h1)
          subst hcd
          simp only [strcmp, if_neg h1, if_neg h2, ih, List.cons_eq_cons, true_and]

theorem dupd_ne (d : Fin 8 → Int) {i j : Fin 8} (v : Int) (h : j ≠ i) :
    dupd d i v j = d j := by
  simp [dupd, h]

theorem dupd_same (d : Fin 8 → Int) (i : Fin 8) (v : Int) : dupd d i v i = v := by
  simp [dupd]

theorem beq_ord_iff {o p : Ordering} : (o == p) = true ↔ o = p := by
  cases o <;> cases p <;> decide

theorem fold_family_other {avg_i cnt_i j : Fin 8} (d w : Fin 8 → Int)
    (h1 : j ≠ avg_i) (h2 : j ≠ cnt_i) :
    fold_family avg_i cnt_i d w j = d j := by
  unfold fold_family
  split
  · rw [dupd_ne _ _ h1, dupd_ne _ _ h2]
  · exact dupd_ne _ _ h2

theorem fold_family_cnt_zero {avg_i cnt_i : Fin 8} (d w : Fin 8 → Int)
    (hne : avg_i ≠ cnt_i) (h : d cnt_i + w cnt_i = 0) :
    fold_family avg_i cnt_i d w avg_i = d avg_i := by
  unfold fold_family
  rw [if_neg (by simp [dupd, h])]
  exact dupd_ne _ _ hne

theorem fold_max_other {max_i j : Fin 8} (d w : Fin 8 → Int) (h : j ≠ max_i) :
    fold_max max_i d w j = d j := by
  unfold fold_max
  split
  · exact dupd_ne _ _ h
  · rfl

theorem digits_val_zero {l : List Char} (h : ∀ c ∈ l, c.isDigit = false) :
    digits_val 0 l = 0 := by
  cases l with
  | nil => rfl
  | cons c cs => simp [digits_val, h c (List.mem_cons_self c cs)]

theorem card_insert_erase {α : Type} [DecidableEq α] (m : Finset α) (s : α) :
    (insert s m).card = (m.erase s).card + 1 := by
  by_cases h : s ∈ m
  · rw [Finset.insert_eq_self.mpr h, Finset.card_erase_of_mem h]
    have : 0 < m.card := Finset.card_pos.mpr ⟨s, h⟩
    omega
  · rw [Finset.card_insert_of_not_mem h, Finset.erase_eq_of_not_mem h]

theorem lock_add_of_not_mem {store : List LockInfo} {s : List Char}
    (h : s ∉ keys store) (f : List Char) (i : Fin 8) (v : Int) :
    lock_add store s f i v = store ++ [new_rec s f i v] := by
  have hf : store.find? (fun r => strcmp s r.stack == Ordering.eq) = none := by
    rw [List.find?_eq_none]
    intro r hr hpr
    apply h
    have hs : s = r.stack := strcmp_eq_iff.mp (beq_ord_iff.mp (by simpa using hpr))
    rw [keys, List.mem_map]
    exact ⟨r, hr, hs.symm⟩
  rw [lock_add, hf]

theorem lock_add_of_mem {store : List LockInfo} {s : List Char}
    (h : s ∈ keys store) (f : List Char) (i : Fin 8) (v : Int) :
    lock_add store s f i v
      = store.map (fun r =>
          if strcmp s r.stack == Ordering.eq then
            { r with data := dupd r.data i (r.data i + v) }
          else r) := by
  cases hfind : store.find? (fun r => strcmp s r.stack == Ordering.eq) with
  | some x => rw [lock_add, hfind]
  | none =>
    exfalso
    rw [keys, List.mem_map] at h
    obtain ⟨r, hr, hrs⟩ := h
    have := List.find?_eq_none.mp hfind r hr
    apply this
    show (strcmp s r.stack == Ordering.eq) = true
    rw [← hrs, strcmp_refl]
    rfl

theorem lock_add_length_of_mem {store : List LockInfo} {s : List Char}
    (h : s ∈ keys store) (f : List Char) (i : Fin 8) (v : Int) :
    (lock_add store s f i v).length = store.length := by
  rw [lock_add_of_mem h, List.length_map]

theorem keys_lock_add_of_mem {store : List LockInfo} {s : List Char}
    (h : s ∈ keys store) (f : List Char) (i : Fin 8) (v : Int) :
    keys (lock_add store s f i v) = keys store := by
  rw [lock_add_of_mem h, keys, keys, List.map_map]
  apply List.map_congr_left
  intro r _
  dsimp only [Function.comp]
  split <;> rfl

theorem parse_fold_length (events : List AddEvent) :
    ∀ store : List LockInfo,
      (parse_fold store events).length
        = store.length + ((events.map AddEvent.stack).toFinset \ (keys store).toFinset).card := by
  induction events with
  | nil => intro store; simp [parse_fold]
  | cons e evs ih =>
    intro store
    have hstep : parse_fold store (e :: evs)
        = parse_fold (lock_add store e.stack e.func e.index e.value) evs := rfl
    rw [hstep]
    by_cases h : e.stack ∈ keys store
    · rw [ih, lock_add_length_of_mem h, keys_lock_add_of_mem h]
      congr 1
      rw [List.map_cons, List.toFinset_cons,
        Finset.insert_sdiff_of_mem _ (List.mem_toFinset.mpr h)]
    · rw [ih, lock_add_of_not_mem h, List.length_append]
      have hk2 : (keys (store ++ [new_rec e.stack e.func e.index e.value])).toFinset
          = insert e.stack (keys store).toFinset := by
        ext x
        simp [keys, new_rec, or_comm]
      rw [hk2, List.map_cons, List.toFinset_cons, Finset.sdiff_insert,
        Finset.insert_sdiff_of_not_mem _ (fun hc => h (List.mem_toFinset.mp hc)),
        card_insert_erase]
      simp
      omega

/-- One-step unfolding of `read_data` on a non-empty line list (definitional). -/
theorem read_data_cons (index : Fin 8) (sdepth : Nat) (st : ReadState)
    (store : List LockInfo) (line : List Char) (rest : List (List Char)) :
    read_data index sdepth st store (line :: rest)
      = (if line.head? = some '=' then Except.ok (store, rest)
        else if has_empty_marker line then read_data index sdepth st store rest
        else if line.head? = some '@' then
          read_data index sdepth { st with have_function := false } store rest
        else if '\n' ∉ line then Except.error line
        else
          let buf := line.takeWhile (fun c => c ≠ '\n') ++ [' ']
          if st.have_function = false then
            match rest with
            | [] => Except.ok (store, [])
            | line2 :: rest2 =>
              if '\n' ∉ line2 then Except.error line2
              else
                let buf2 := line2.takeWhile (fun c => c ≠ '\n') ++ [' ']
                read_data index sdepth
                  { stack_in := buf ++ last_space_to_colon buf2,
                    func_called := last_space_to_colon buf2,
                    depth := 1, have_function := true } store rest2
          else if buf.head? = some ']' then
            if ':' ∉ buf then Except.error buf
            else
              read_data index sdepth { st with depth := 0 }
                (lock_add store st.stack_in st.func_called index
                  (atoll ((buf.dropWhile (fun c => c ≠ ':')).drop 1))) rest
          else
            if st.depth < sdepth then
              read_data index sdepth
                { st with stack_in := st.stack_in ++ buf,
                          func_called := st.func_called ++ last_space_to_colon buf,
                          depth := st.depth + 1 } store rest
            else
              read_data index sdepth { st with stack_in := st.stack_in ++ buf } store
                rest) := by
  cases rest <;> rfl

/- ------------------------------------------------------------------ -/
/- Claim theorems.                                                     -/
/- ------------------------------------------------------------------ -/

/-- C1: the claim that consolidating two stacks with caller `foo+10`,
`(acq_count, acq_avg) = (10, 100)` and `(30, 300)`, yields `acq_count = 40`
and `acq_avg = 250` fails on the code: `organize_data` never increments
`number_cons_entries` for the first record of the caller-sorted array, so
that record's fold is overwritten and only the other stack's metrics
survive — `(30, 300)` in one `qsort` tie order, `(10, 100)` in the other,
never `(40, 250)`.  The per-step fold arithmetic itself does match the
claimed formula: folding both records into one blank entry gives 250. -/
theorem c1_consolidation_drops_first_record :
    ((organize_data [rec_foo_a, rec_foo_b]).map
        (fun r => (r.data ACQ_DATA_HOLD_COUNT, r.data ACQ_DATA_HOLD_AVG)) = [(30, 300)]) ∧
    (((cons_loop ⟨[], 0⟩ 0 [rec_foo_b, rec_foo_a]).buffer.take
          (cons_loop ⟨[], 0⟩ 0 [rec_foo_b, rec_foo_a]).ncons).map
        (fun r => (r.data ACQ_DATA_HOLD_COUNT, r.data ACQ_DATA_HOLD_AVG)) = [(10, 100)]) ∧
    ((organize_data [rec_foo_a, rec_foo_b]).map
        (fun r => (r.data ACQ_DATA_HOLD_COUNT, r.data ACQ_DATA_HOLD_AVG)) ≠ [(40, 250)]) ∧
    ((cons_fold (cons_fold (blank_caller ("foo+10:".toList)) rec_foo_a) rec_foo_b).data
        ACQ_DATA_HOLD_COUNT = 40) ∧
    ((cons_fold (cons_fold (blank_caller ("foo+10:".toList)) rec_foo_a) rec_foo_b).data
        ACQ_DATA_HOLD_AVG = 250) := by
  refine ⟨by decide, by decide, by decide, by decide, by decide⟩

/-- C2: the claim that the consolidated store holds exactly one record per
distinct called-from key, with every stack record folded exactly once,
fails on the code: a store with a single stack record consolidates to zero
visible records (`number_cons_entries` is never incremented for the first
record), and a store with two records under two distinct callers
consolidates to one record — the alphabetically first caller vanishes. -/
theorem c2_one_record_per_key_fails :
    (organize_data [rec_foo_a]).length = 0 ∧
    ((organize_data [rec_foo_a, rec_bar]).map (fun r => r.called_from)
        = ["foo+10:".toList]) ∧
    ((([rec_foo_a, rec_bar].map (fun r => r.called_from)).toFinset.card) = 2) := by
  refine ⟨by decide, by decide, by decide⟩

/-- C3: the claim that the default sort criterion is code 7 (descending
`acq_total`) fails on the code: `main` initializes `sort_on` to
`ACQS_SPENT = 6` (the define block lacks a hold-total entry, shifting the
codes), and the `dump_data` switch maps 6 to `sort_aq_average`, so the
default report is ordered by `acq_avg`, not `acq_total`: with records of
`(acq_avg, acq_total) = (100, 100)` and `(10, 1000)` the default order puts
the high-average record first, while criterion 7 would put the high-total
record first. -/
theorem c3_default_sort_selects_acq_avg :
    default_sort_on = 6 ∧
    criterion_index default_sort_on = ACQ_DATA_HOLD_AVG ∧
    criterion_index 7 = ACQ_DATA_TOTAL_TIME ∧
    ACQ_DATA_HOLD_AVG ≠ ACQ_DATA_TOTAL_TIME ∧
    ((sort_records (criterion_index default_sort_on)
        [derive_totals rec_high_total, derive_totals rec_high_avg]).map
          (fun r => r.data ACQ_DATA_HOLD_AVG) = [100, 10]) ∧
    ((sort_records (criterion_index 7)
        [derive_totals rec_high_total, derive_totals rec_high_avg]).map
          (fun r => r.data ACQ_DATA_TOTAL_TIME) = [1000, 100]) := by
  refine ⟨by decide, by decide, by decide, by decide, by decide, by decide⟩

/-- C4: the claim that every sort code outside 0-7 draws a diagnostic and is
replaced by the default criterion `acq_total` fails on the code: `main`
clamps only values greater than `ACQS_SPENT = 6` — so code 8 draws the
diagnostic but ends up on criterion 6, which the switch maps to `acq_avg`,
and the in-range code 7 is also clamped — while negative codes pass through
silently (no diagnostic) and land on the switch's `default` arm
(`sort_aq_spin`, the `acq_total` comparator). -/
theorem c4_out_of_range_sort_handling :
    clamp_sort_option 8 = (6, true) ∧
    criterion_index 6 = ACQ_DATA_HOLD_AVG ∧
    ACQ_DATA_HOLD_AVG ≠ ACQ_DATA_TOTAL_TIME ∧
    clamp_sort_option (-1) = (-1, false) ∧
    criterion_index (-1) = ACQ_DATA_TOTAL_TIME ∧
    clamp_sort_option 7 = (6, true) := by
  refine ⟨by decide, by decide, by decide, by decide, by decide, by decide⟩

/-- C6: dedup invariant of the parser's store update — after folding any
sequence of parsed entries (whatever sections they come from) through
`lock_add` starting from the empty store, the number of stack records
equals the number of distinct stack signatures among the entries; an entry
whose signature is already present updates in place and never creates a
second record. -/
theorem c6_dedup_invariant (events : List AddEvent) :
    (parse_fold [] events).length = (events.map AddEvent.stack).toFinset.card := by
  rw [parse_fold_length events []]
  simp [keys]

/-- C7: additive accumulation — when a stack signature not yet in the store
is parsed twice (two entries of the same section contributing `v1` then
`v2` to the same metric slot), the record's slot ends up holding `v1 + v2`,
not the overwritten second value. -/
theorem c7_additive_accumulate (store : List LockInfo) (s f : List Char) (i : Fin 8)
    (v1 v2 : Int)
    (h : store.find? (fun r => strcmp s r.stack == Ordering.eq) = none) :
    ((lock_add (lock_add store s f i v1) s f i v2).find?
        (fun r => strcmp s r.stack == Ordering.eq)).map (fun r => r.data i)
      = some (v1 + v2) ∧
    (v1 ≠ 0 →
      ((lock_add (lock_add store s f i v1) s f i v2).find?
          (fun r => strcmp s r.stack == Ordering.eq)).map (fun r => r.data i)
        ≠ some v2) := by
  have hnm : s ∉ keys store := by
    intro hmem
    rw [keys, List.mem_map] at hmem
    obtain ⟨r, hr, hrs⟩ := hmem
    apply List.find?_eq_none.mp h r hr
    show (strcmp s r.stack == Ordering.eq) = true
    rw [hrs, strcmp_refl]
    rfl
  have hmain : ((lock_add (lock_add store s f i v1) s f i v2).find?
      (fun r => strcmp s r.stack == Ordering.eq)).map (fun r => r.data i)
      = some (v1 + v2) := by
    rw [lock_add_of_not_mem hnm]
    have hmem1 : s ∈ keys (store ++ [new_rec s f i v1]) := by
      rw [keys, List.mem_map]
      exact ⟨new_rec s f i v1, by simp, rfl⟩
    rw [lock_add_of_mem hmem1, List.map_append]
    have hnone : ((store.map (fun r =>
        if strcmp s r.stack == Ordering.eq then
          { r with data := dupd r.data i (r.data i + v2) }
        else r)).find? (fun r => strcmp s r.stack == Ordering.eq)) = none := by
      rw [List.find?_eq_none]
      intro x hx
      rw [List.mem_map] at hx
      obtain ⟨r, hr, hrx⟩ := hx
      have hnp := List.find?_eq_none.mp h r hr
      have hxs : x.stack = r.stack := by
        rw [← hrx]
        split <;> rfl
      show ¬ (strcmp s x.stack == Ordering.eq) = true
      rw [hxs]
      exact hnp
    rw [List.find?_append, hnone, Option.none_or]
    have hupd : ([new_rec s f i v1].map (fun r =>
        if strcmp s r.stack == Ordering.eq then
          { r with data := dupd r.data i (r.data i + v2) }
        else r)) = [{ new_rec s f i v1 with
          data := dupd (new_rec s f i v1).data i ((new_rec s f i v1).data i + v2) }] := by
      simp only [List.map_cons, List.map_nil]
      congr 1
      rw [if_pos (by rw [new_rec, strcmp_refl]; rfl)]
    rw [hupd]
    have hfound : (List.find? (fun r => strcmp s r.stack == Ordering.eq)
        [{ new_rec s f i v1 with
           data := dupd (new_rec s f i v1).data i ((new_rec s f i v1).data i + v2) }])
        = some { new_rec s f i v1 with
           data := dupd (new_rec s f i v1).data i ((new_rec s f i v1).data i + v2) } := by
      rw [List.find?_cons]
      have : (strcmp s (new_rec s f i v1).stack == Ordering.eq) = true := by
        rw [new_rec, strcmp_refl]
        rfl
      rw [this]
    rw [hfound]
    simp [new_rec, dupd]
  exact ⟨hmain, fun hv1 => by rw [hmain]; simp; omega⟩

/-- Witness for C7: two entries of value 5 and 7 for a fresh signature leave
the slot holding 12. -/
theorem c7_additive_accumulate_witness :
    (([] : List LockInfo).find? (fun r => strcmp ['s'] r.stack == Ordering.eq) = none) ∧
    ((lock_add (lock_add [] ['s'] ['f'] ACQ_DATA_HOLD_AVG 5) ['s'] ['f'] ACQ_DATA_HOLD_AVG 7).find?
        (fun r => strcmp ['s'] r.stack == Ordering.eq)).map (fun r => r.data ACQ_DATA_HOLD_AVG)
      = some (5 + 7) :=
  ⟨rfl, (c7_additive_accumulate [] ['s'] ['f'] ACQ_DATA_HOLD_AVG 5 7 rfl).1⟩

/-- C8: zero-count guard of the consolidation fold — in one fold step, for
either metric family, if the merged count is zero the guarded division is
skipped and the entry's average is left unchanged. -/
theorem c8_zero_count_guard (entry_add wptr : LockInfo) :
    (entry_add.data ACQ_DATA_HOLD_COUNT + wptr.data ACQ_DATA_HOLD_COUNT = 0 →
      (cons_fold entry_add wptr).data ACQ_DATA_HOLD_AVG
        = entry_add.data ACQ_DATA_HOLD_AVG) ∧
    (entry_add.data HD_DATA_HOLD_COUNT + wptr.data HD_DATA_HOLD_COUNT = 0 →
      (cons_fold entry_add wptr).data HD_DATA_HOLD_AVG
        = entry_add.data HD_DATA_HOLD_AVG) := by
  constructor
  · intro h
    show (cons_fold entry_add wptr).data ACQ_DATA_HOLD_AVG = _
    unfold cons_fold
    dsimp only
    rw [fold_max_other _ _ (by decide), fold_max_other _ _ (by decide),
      fold_family_other _ _ (by decide) (by decide),
      fold_family_cnt_zero _ _ (by decide) h]
  · intro h
    show (cons_fold entry_add wptr).data HD_DATA_HOLD_AVG = _
    unfold cons_fold
    dsimp only
    rw [fold_max_other _ _ (by decide), fold_max_other _ _ (by decide)]
    have hcnt : (fold_family ACQ_DATA_HOLD_AVG ACQ_DATA_HOLD_COUNT entry_add.data wptr.data)
        HD_DATA_HOLD_COUNT = entry_add.data HD_DATA_HOLD_COUNT :=
      fold_family_other _ _ (by decide) (by decide)
    rw [fold_family_cnt_zero _ _ (by decide) (by rw [hcnt]; exact h),
      fold_family_other _ _ (by decide) (by decide)]

/-- Witness for C8: folding two all-zero entries (merged counts zero) leaves
both averages unchanged. -/
theorem c8_zero_count_guard_witness :
    ((blank_caller []).data ACQ_DATA_HOLD_COUNT + (blank_caller []).data ACQ_DATA_HOLD_COUNT
      = 0) ∧
    (cons_fold (blank_caller []) (blank_caller [])).data ACQ_DATA_HOLD_AVG
      = (blank_caller []).data ACQ_DATA_HOLD_AVG ∧
    (cons_fold (blank_caller []) (blank_caller [])).data HD_DATA_HOLD_AVG
      = (blank_caller []).data HD_DATA_HOLD_AVG :=
  ⟨by decide, (c8_zero_count_guard _ _).1 (by decide), (c8_zero_count_guard _ _).2 (by decide)⟩

/-- C5 counterexample: with a two-record store whose first record fails the
caller filter and whose second passes, and a row limit of 1, the code
renders no rows (`dump_data` truncates to the first record, which the
filter then drops), while the claim's filter-then-truncate reading renders
the passing record. -/
theorem c5_filter_after_truncate_counterexample :
    (dump_rows [rec_filter_fail, rec_filter_pass] (some ("foo+10".toList)) 1).length = 0 ∧
    ((spec_rendered_rows [rec_filter_fail, rec_filter_pass] (some ("foo+10".toList)) 1).map
        (fun r => r.called_from) = ["foo+10: ".toList]) ∧
    row_matches (some ("foo+10".toList)) rec_filter_pass = true := by
  refine ⟨by decide, by decide, by decide⟩

/-- C5 amended: for a nonnegative `int` row limit, the rendered rows are
exactly the filter-surviving records among the first
`min(max_rows, store size)` records of the (sorted) store — truncation is
applied before the filter — and the row count exceeds neither `max_rows`
nor the number of records surviving the filter. -/
theorem c5_truncation_bounds (store : List LockInfo) (caller : Option (List Char))
    (numb_to_show : Int) (h0 : 0 ≤ numb_to_show) (h1 : numb_to_show ≤ 2147483647) :
    dump_rows store caller numb_to_show
      = (store.take (min numb_to_show.toNat store.length)).filter (row_matches caller) ∧
    (dump_rows store caller numb_to_show).length ≤ numb_to_show.toNat ∧
    (dump_rows store caller numb_to_show).length
      ≤ (store.filter (row_matches caller)).length := by
  have hsz : size_t_of_int numb_to_show = numb_to_show.toNat := by
    rw [size_t_of_int, Int.emod_eq_of_lt h0 (lt_of_le_of_lt h1 (by norm_num))]
  have htr : truncate_count numb_to_show store.length
      = min numb_to_show.toNat store.length := by
    rw [truncate_count, hsz]
    by_cases hlt : numb_to_show.toNat < store.length
    · rw [if_pos hlt, Nat.min_eq_left (le_of_lt hlt)]
    · rw [if_neg hlt, Nat.min_eq_right (le_of_not_lt hlt)]
  refine ⟨by rw [dump_rows, htr], ?_, ?_⟩
  · rw [dump_rows, htr]
    calc ((store.take (min numb_to_show.toNat store.length)).filter
            (row_matches caller)).length
        ≤ (store.take (min numb_to_show.toNat store.length)).length :=
          List.length_filter_le _ _
      _ ≤ numb_to_show.toNat := by
          rw [List.length_take]
          omega
  · rw [dump_rows]
    exact ((List.take_sublist _ _).filter (row_matches caller)).length_le

/-- Witness for C5's amended bounds at a concrete store and row limit 1. -/
theorem c5_truncation_bounds_witness :
    ((0 : Int) ≤ 1 ∧ (1 : Int) ≤ 2147483647) ∧
    (dump_rows [rec_filter_fail, rec_filter_pass] (some ("foo+10".toList)) 1).length
      ≤ (1 : Int).toNat ∧
    (dump_rows [rec_filter_fail, rec_filter_pass] (some ("foo+10".toList)) 1).length
      ≤ ([rec_filter_fail, rec_filter_pass].filter
          (row_matches (some ("foo+10".toList)))).length :=
  ⟨⟨by decide, by decide⟩,
    (c5_truncation_bounds _ _ _ (by decide) (by decide)).2.1,
    (c5_truncation_bounds _ _ _ (by decide) (by decide)).2.2⟩

/-- C9: malformed input aborts with the offending line and produces no
report: a data line with no `'\n'` (one that is not a section terminator,
not an empty-collection marker and not an `'@'` header) makes `read_data`
fail with that line as the diagnostic; a stack-terminator line (`']'`)
carrying a `'\n'` but no `':'` separator makes it fail with the processed
line as the diagnostic; and any `lookup_data` failure propagates so that
`produce_report` yields the same error and no rows. -/
theorem c9_malformed_line_aborts (index : Fin 8) (sdepth : Nat) (st : ReadState)
    (store : List LockInfo) (line : List Char) (rest : List (List Char)) :
    (line.head? ≠ some '=' → has_empty_marker line = false → line.head? ≠ some '@' →
      '\n' ∉ line →
      remove_new_line line = Except.error line ∧
      read_data index sdepth st store (line :: rest) = Except.error line) ∧
    (st.have_function = true → line.head? = some ']' → has_empty_marker line = false →
      '\n' ∈ line → ':' ∉ line →
      read_data index sdepth st store (line :: rest)
        = Except.error (line.takeWhile (fun c => c ≠ '\n') ++ [' '])) ∧
    (∀ (lines : List (List Char)) (e : List Char) (caller : Option (List Char))
        (sort_on numb_to_show : Int),
      lookup_data lines sdepth = Except.error e →
      produce_report lines sdepth caller sort_on numb_to_show = Except.error e) := by
  refine ⟨?_, ?_, ?_⟩
  · intro h1 h2 h3 h4
    refine ⟨by rw [remove_new_line, if_neg h4], ?_⟩
    rw [read_data_cons, if_neg h1, if_neg (by simp [h2]), if_neg h3, if_pos h4]
  · intro hf hbr hbb hnl hnc
    obtain ⟨tl, rfl⟩ : ∃ tl, line = ']' :: tl := by
      cases line with
      | nil => simp at hbr
      | cons c tl =>
        simp only [List.head?_cons, Option.some.injEq] at hbr
        exact ⟨tl, by rw [hbr]⟩
    have htw : (']' :: tl).takeWhile (fun c => c ≠ '\n')
        = ']' :: tl.takeWhile (fun c => c ≠ '\n') :=
      List.takeWhile_cons_of_pos (by decide)
    have hnotc : ':' ∉ (']' :: tl).takeWhile (fun c => c ≠ '\n') ++ [' '] := by
      rw [htw]
      intro hmem
      rcases List.mem_cons.mp hmem with hceq | hmem1
      · exact absurd hceq (by decide)
      · rcases List.mem_append.mp hmem1 with hmem2 | hmem3
        · exact hnc (List.mem_cons_of_mem _ ((List.takeWhile_sublist _).subset hmem2))
        · exact absurd (List.mem_singleton.mp hmem3) (by decide)
    have hhd : ((']' :: tl).takeWhile (fun c => c ≠ '\n') ++ [' ']).head? = some ']' := by
      rw [htw]
      rfl
    rw [read_data_cons,
      if_neg (by simp only [List.head?_cons, Option.some.injEq]; decide),
      if_neg (by simp [hbb]),
      if_neg (by simp only [List.head?_cons, Option.some.injEq]; decide),
      if_neg (not_not_intro hnl)]
    dsimp only
    rw [hf, if_neg (by decide), hhd, if_pos rfl, if_pos hnotc]
  · intro lines e caller so n h
    simp only [produce_report, h]
    rfl

/-- Witness for C9: a newline-less data line, a colon-less terminator line,
and a five-line input whose first data line is malformed, each aborting
with the offending line and yielding no report. -/
theorem c9_malformed_line_aborts_witness :
    read_data ACQ_DATA_HOLD_AVG 1 ⟨[], [], 0, true⟩ [] [['a']] = Except.error ['a'] ∧
    read_data ACQ_DATA_HOLD_AVG 1 ⟨['a'], ['f'], 0, true⟩ [] [[']', ' ', '5', '\n']]
      = Except.error ([']', ' ', '5', '\n'].takeWhile (fun c => c ≠ '\n') ++ [' ']) ∧
    produce_report [['h'], ['h'], ['h'], ['h'], ['a']] 1 none 6 10 = Except.error ['a'] := by
  refine ⟨?_, ?_, ?_⟩
  · exact ((c9_malformed_line_aborts ACQ_DATA_HOLD_AVG 1 ⟨[], [], 0, true⟩ [] ['a'] []).1
      (by decide) (by decide) (by decide) (by decide)).2
  · exact (c9_malformed_line_aborts ACQ_DATA_HOLD_AVG 1 ⟨['a'], ['f'], 0, true⟩ []
      [']', ' ', '5', '\n'] []).2.1 rfl rfl rfl (by decide) (by decide)
  · exact (c9_malformed_line_aborts ACQ_DATA_HOLD_AVG 1 ⟨[], [], 0, true⟩ [] [] []).2.2
      [['h'], ['h'], ['h'], ['h'], ['a']] ['a'] none 6 10 rfl

/-- C10: a stack-terminator line that does contain the `':'` separator is
accepted whatever follows it — `read_data` continues with the `atoll` value
of the text after the separator folded into the store — and `atoll` maps
digit-free text to 0, so an unparsable value is silently folded as 0; only
a missing `':'` is malformed. -/
theorem c10_atoll_after_colon (index : Fin 8) (sdepth : Nat) (st : ReadState)
    (store : List LockInfo) (line : List Char) (rest : List (List Char)) :
    (st.have_function = true → line.head? = some ']' → has_empty_marker line = false →
      '\n' ∈ line → ':' ∈ line.takeWhile (fun c => c ≠ '\n') →
      read_data index sdepth st store (line :: rest)
        = read_data index sdepth { st with depth := 0 }
            (lock_add store st.stack_in st.func_called index
              (atoll (((line.takeWhile (fun c => c ≠ '\n') ++ [' ']).dropWhile
                  (fun c => c ≠ ':')).drop 1)))
            rest) ∧
    (∀ s : List Char, (∀ c ∈ s, c.isDigit = false) → atoll s = 0) := by
  constructor
  · intro hf hbr hbb hnl hc
    obtain ⟨tl, rfl⟩ : ∃ tl, line = ']' :: tl := by
      cases line with
      | nil => simp at hbr
      | cons c tl =>
        simp only [List.head?_cons, Option.some.injEq] at hbr
        exact ⟨tl, by rw [hbr]⟩
    have htw : (']' :: tl).takeWhile (fun c => c ≠ '\n')
        = ']' :: tl.takeWhile (fun c => c ≠ '\n') :=
      List.takeWhile_cons_of_pos (by decide)
    have hcb : ':' ∈ (']' :: tl).takeWhile (fun c => c ≠ '\n') ++ [' '] :=
      List.mem_append_left _ hc
    have hhd : ((']' :: tl).takeWhile (fun c => c ≠ '\n') ++ [' ']).head? = some ']' := by
      rw [htw]
      rfl
    rw [read_data_cons,
      if_neg (by simp only [List.head?_cons, Option.some.injEq]; decide),
      if_neg (by simp [hbb]),
      if_neg (by simp only [List.head?_cons, Option.some.injEq]; decide),
      if_neg (not_not_intro hnl)]
    dsimp only
    rw [hf, if_neg (by decide), hhd, if_pos rfl, if_neg (not_not_intro hcb)]
  · intro s hs
    have hsub : ∀ c ∈ s.dropWhile isspace_c, c.isDigit = false :=
      fun c hc => hs c ((List.dropWhile_sublist _).subset hc)
    unfold atoll
    cases ht : s.dropWhile isspace_c with
    | nil => rfl
    | cons c cs =>
      have hcs : ∀ x ∈ cs, x.isDigit = false := by
        intro x hx
        exact hsub x (by rw [ht]; exact List.mem_cons_of_mem _ hx)
      have hccs : ∀ x ∈ c :: cs, x.isDigit = false := by
        intro x hx
        exact hsub x (by rw [ht]; exact hx)
      show (if c = '-' then - digits_val 0 cs
        else if c = '+' then digits_val 0 cs else digits_val 0 (c :: cs)) = 0
      by_cases hc1 : c = '-'
      · rw [if_pos hc1, digits_val_zero hcs, neg_zero]
      · rw [if_neg hc1]
        by_cases hc2 : c = '+'
        · rw [if_pos hc2]
          exact digits_val_zero hcs
        · rw [if_neg hc2]
          exact digits_val_zero hccs

/-- Witness for C10: the terminator line `]:x` is accepted, folding
`atoll "x " = 0` into the store; `atoll` on the digit-free text is 0. -/
theorem c10_atoll_after_colon_witness :
    read_data ACQ_DATA_HOLD_AVG 1 ⟨['a'], ['f'], 0, true⟩ [] [[']', ':', 'x', '\n']]
      = read_data ACQ_DATA_HOLD_AVG 1 ⟨['a'], ['f'], 0, true⟩
          (lock_add [] ['a'] ['f'] ACQ_DATA_HOLD_AVG
            (atoll ((([']', ':', 'x', '\n'].takeWhile (fun c => c ≠ '\n') ++ [' ']).dropWhile
                (fun c => c ≠ ':')).drop 1)))
          [] ∧
    atoll ['x', ' '] = 0 := by
  constructor
  · exact (c10_atoll_after_colon ACQ_DATA_HOLD_AVG 1 ⟨['a'], ['f'], 0, true⟩ []
      [']', ':', 'x', '\n'] []).1 rfl rfl rfl (by decide) (by decide)
  · exact (c10_atoll_after_colon ACQ_DATA_HOLD_AVG 1 ⟨[], [], 0, true⟩ [] [] []).2
      ['x', ' '] (by decide)

end ProduceLockInfo
